import Mathlib

/-!
Shallow embedding of the backtesting simulation core of the ai-trading-system
repository: the risk manager (risk_management.py), the backtesting engine
ledger (backtesting.py) and the strategy variants
(traders/trading_strategies.py).

Monetary amounts and prices are modelled as rationals; the only real-valued
parts are the standard deviations computed with numpy (np.std is a square
root, which is irrational in general) and the Sharpe ratio with its sqrt(252)
factor.  Python floats are modelled as exact arithmetic; pandas NaN cells are
modelled as Option values (none = NaN), and NaN comparisons are false, as in
Python.
-/

namespace AiTrading

/-- Arithmetic mean of a list of rationals (np.mean / pandas mean over the
non-null values; callers guard against the empty list, where Lean's division
by zero yields 0). -/
def smean (xs : List ℚ) : ℚ := xs.sum / (xs.length : ℚ)

/-- Population variance (the square of np.std, which uses ddof = 0). -/
def popVar (xs : List ℚ) : ℚ :=
  ((xs.map (fun x => (x - smean xs) ^ 2)).sum) / (xs.length : ℚ)

/-- np.std: population standard deviation, a real square root. -/
noncomputable def npStd (xs : List ℚ) : ℝ := Real.sqrt ((popVar xs : ℚ) : ℝ)

/-- pandas Series.mean with skipna: the mean of the non-NaN entries, NaN when
all entries are NaN. -/
def omean (xs : List (Option ℚ)) : Option ℚ :=
  let vs := xs.filterMap id
  if vs.isEmpty then none else some (smean vs)

/-- pandas Series.rolling(window = w).mean() over a series without nulls:
entry i is the mean of entries i+1-w .. i, NaN while fewer than w rows are
available (min_periods defaults to the window size). -/
def rollingMean (w : ℕ) (xs : List ℚ) : List (Option ℚ) :=
  (List.range xs.length).map fun i =>
    if w ≤ i + 1 then some (smean ((xs.take (i + 1)).drop (i + 1 - w))) else none

/-- pandas Series.pct_change(): NaN at row 0, then (x_i - x_(i-1)) / x_(i-1). -/
def pctChange (xs : List ℚ) : List (Option ℚ) :=
  match xs with
  | [] => []
  | _ :: t => none :: List.zipWith (fun prev cur => some ((cur - prev) / prev)) xs t

/-- Python max over a nonempty list (0 stands in for the guarded empty case). -/
def listMax : List ℚ → ℚ
  | [] => 0
  | h :: t => t.foldl max h

/-- Python min over a nonempty list (0 stands in for the guarded empty case). -/
def listMin : List ℚ → ℚ
  | [] => 0
  | h :: t => t.foldl min h

/-! ## Risk management (risk_management.py) -/

/-- RiskLevel enum. -/
inductive RiskLevel where
  | low
  | medium
  | high
  | critical
deriving DecidableEq

/-- The risk limits read from the config dict in RiskManager.__init__,
with the source defaults documented at each use site. -/
structure RMConfig where
  max_position_size : ℚ
  max_daily_loss : ℚ
  max_drawdown : ℚ
  stop_loss_pct : ℚ
  take_profit_pct : ℚ
  max_positions : ℕ
deriving DecidableEq

/-- The RiskManager configuration the BacktestingEngine constructs:
max_position_size 0.1, max_daily_loss 0.05, stop_loss_pct 0.05,
take_profit_pct 0.15; max_portfolio_risk/max_drawdown/max_positions keep
their defaults (0.02, 0.15, 10). -/
def backtestConfig : RMConfig :=
  { max_position_size := 1/10
    max_daily_loss := 1/20
    max_drawdown := 3/20
    stop_loss_pct := 1/20
    take_profit_pct := 3/20
    max_positions := 10 }

/-- risk_management.Position. -/
structure RPosition where
  symbol : String
  quantity : ℚ
  entry_price : ℚ
  current_price : ℚ
  side : String
  stop_loss : Option ℚ := none
  take_profit : Option ℚ := none
deriving DecidableEq

/-- The per-position P&L summand of RiskManager.calculate_portfolio_risk:
long positions gain as the mark rises, short ones as it falls. -/
def position_pnl (p : RPosition) : ℚ :=
  if p.side = "long" then (p.current_price - p.entry_price) * p.quantity
  else (p.entry_price - p.current_price) * p.quantity

/-- PortfolioRisk dataclass (timestamps omitted; the volatility and Sharpe
fields are real because np.std takes a square root). -/
structure PortfolioRisk where
  total_value : ℚ
  total_pnl : ℚ
  daily_pnl : ℚ
  max_drawdown : ℚ
  volatility : ℝ
  sharpe_val : ℝ
  risk_level : RiskLevel
  position_count : ℕ
  correlation_score : ℚ

/-- RiskManager._determine_risk_level: four independently scored checks,
summed, then mapped onto the ordinal levels. -/
noncomputable def determine_risk_level (cfg : RMConfig) (daily_return : ℚ)
    (drawdown : ℚ) (volatility : ℝ) (position_count : ℕ) : RiskLevel :=
  let daily_score : ℕ :=
    if cfg.max_daily_loss < |daily_return| then 3
    else if cfg.max_daily_loss * (1/2) < |daily_return| then 1 else 0
  let drawdown_score : ℕ :=
    if cfg.max_drawdown < |drawdown| then 3
    else if cfg.max_drawdown * (1/2) < |drawdown| then 1 else 0
  let volatility_score : ℕ :=
    if (5/100 : ℝ) < volatility then 2
    else if (3/100 : ℝ) < volatility then 1 else 0
  let concentration_score : ℕ :=
    if cfg.max_positions < position_count then 2
    else if (cfg.max_positions : ℚ) * (8/10) < (position_count : ℚ) then 1 else 0
  let risk_score := daily_score + drawdown_score + volatility_score + concentration_score
  if 6 ≤ risk_score then RiskLevel.critical
  else if 4 ≤ risk_score then RiskLevel.high
  else if 2 ≤ risk_score then RiskLevel.medium
  else RiskLevel.low

/-- RiskManager.calculate_portfolio_risk.  The correlation score that
_calculate_correlation_score would extract from the supplied market_data
DataFrame (a pandas corr over whatever columns match open positions) is
passed in as the argument corr; the backtesting engine always supplies an
empty DataFrame, for which it is 0. -/
noncomputable def calculate_portfolio_risk (cfg : RMConfig)
    (positions : List RPosition) (portfolio_value : ℚ) (corr : ℚ) : PortfolioRisk :=
  if positions.isEmpty then
    { total_value := portfolio_value, total_pnl := 0, daily_pnl := 0
      max_drawdown := 0, volatility := 0, sharpe_val := 0
      risk_level := RiskLevel.low, position_count := 0, correlation_score := 0 }
  else
    let total_pnl := (positions.map position_pnl).sum
    let position_values := positions.map fun p => p.quantity * p.current_price
    let daily_pnl := total_pnl * (1/10)
    let volatility : ℝ :=
      if 1 < position_values.length then npStd position_values / ((smean position_values : ℚ) : ℝ)
      else 0
    let max_drawdown := min 0 (total_pnl / portfolio_value)
    let sharpe_val : ℝ :=
      if 0 < volatility then (((total_pnl / portfolio_value : ℚ) : ℝ)) / (volatility + 1/100)
      else 0
    { total_value := portfolio_value + total_pnl
      total_pnl := total_pnl
      daily_pnl := daily_pnl
      max_drawdown := max_drawdown
      volatility := volatility
      sharpe_val := sharpe_val
      risk_level := determine_risk_level cfg (daily_pnl / portfolio_value)
        max_drawdown volatility positions.length
      position_count := positions.length
      correlation_score := corr }

/-- RiskManager.should_trade: the trade gate.  As in
calculate_portfolio_risk, corr is the correlation score of the supplied
market_data. -/
noncomputable def should_trade (cfg : RMConfig) (positions : List RPosition)
    (symbol : String) (signal : String) (portfolio_value : ℚ) (corr : ℚ) :
    Bool × String :=
  if cfg.max_positions ≤ positions.length ∧ symbol ∉ positions.map RPosition.symbol then
    (false, "Maximum positions reached")
  else
    let portfolio_risk := calculate_portfolio_risk cfg positions portfolio_value corr
    if portfolio_risk.risk_level = RiskLevel.critical then
      (false, "Critical risk level - no new trades")
    else if portfolio_risk.risk_level = RiskLevel.high ∧ signal ≠ "SELL" then
      (false, "High risk level - only closing positions")
    else if portfolio_risk.daily_pnl < -(portfolio_value * cfg.max_daily_loss) then
      (false, "Daily loss limit reached")
    else if (7/10 : ℚ) < portfolio_risk.correlation_score then
      (false, "High correlation risk")
    else
      (true, "Trade approved")

/-- RiskManager.calculate_position_size: Kelly fraction damped by
volatility, capped by the maximum position size (also damped) and by 10% of
the portfolio value.  The symbol argument of the source is unused and
dropped; price is kept although the source never reads it either. -/
def calculate_position_size (cfg : RMConfig) (portfolio_value : ℚ)
    (price : ℚ) (volatility : ℚ) : ℚ :=
  let win_rate : ℚ := 11/20
  let avg_win := cfg.take_profit_pct
  let avg_loss := cfg.stop_loss_pct
  let kelly_fraction := (win_rate * avg_win - (1 - win_rate) * avg_loss) / avg_win
  let volatility_adjustment := 1 / (1 + volatility * 10)
  let max_size := portfolio_value * cfg.max_position_size * volatility_adjustment
  let kelly_size := portfolio_value * kelly_fraction * volatility_adjustment
  min max_size (min kelly_size (portfolio_value * (1/10)))

/-! ## Backtesting ledger (backtesting.py) -/

/-- backtesting.Position (the dataclass of the engine, distinct from the
risk manager's).  Timestamps carry no information the claims touch and are
omitted. -/
structure BPos where
  symbol : String
  quantity : ℚ
  entry_price : ℚ
  current_price : ℚ
  side : String
  unrealized_pnl : ℚ := 0
deriving DecidableEq

/-- backtesting.Trade (timestamp and strategy tag omitted). -/
structure BTrade where
  symbol : String
  side : String
  quantity : ℚ
  price : ℚ
  pnl : ℚ := 0
  commission : ℚ := 0
deriving DecidableEq

/-- The mutable ledger state of BacktestingEngine: current_capital, the
positions dict and the append-only trade log. -/
structure EngineState where
  capital : ℚ
  positions : List BPos
  trades : List BTrade
deriving DecidableEq

/-- _reset_state: capital back to the initial capital, no positions, no
trades. -/
def initState (initial_capital : ℚ) : EngineState :=
  { capital := initial_capital, positions := [], trades := [] }

/-- The position-size the buy path requests (first lines of _execute_buy). -/
def buy_size (cfg : RMConfig) (s : EngineState) (price volatility : ℚ) : ℚ :=
  calculate_position_size cfg s.capital price volatility

/-- quantity = position_size / price in _execute_buy. -/
def buy_quantity (cfg : RMConfig) (s : EngineState) (price volatility : ℚ) : ℚ :=
  buy_size cfg s price volatility / price

/-- trade_value = quantity * price in _execute_buy (the notional). -/
def buy_notional (cfg : RMConfig) (s : EngineState) (price volatility : ℚ) : ℚ :=
  buy_quantity cfg s price volatility * price

/-- trade_commission = trade_value * commission in _execute_buy. -/
def buy_commission (cfg : RMConfig) (s : EngineState) (price volatility commission : ℚ) : ℚ :=
  buy_notional cfg s price volatility * commission

/-- Python dict assignment positions[symbol] = p: replaces any entry with
that key, otherwise appends. -/
def upsertPos (ps : List BPos) (p : BPos) : List BPos :=
  (ps.filter fun q => q.symbol ≠ p.symbol) ++ [p]

/-- BacktestingEngine._execute_buy: size the position, give up on a
non-positive size, silently reject when notional plus commission exceeds
the current capital, otherwise debit cash, create the (long) position and
append an opening trade with zero realized pnl. -/
def execute_buy (cfg : RMConfig) (s : EngineState) (symbol : String)
    (price volatility commission : ℚ) : EngineState :=
  let position_size := buy_size cfg s price volatility
  if position_size ≤ 0 then s
  else
    let quantity := position_size / price
    let trade_value := quantity * price
    let trade_commission := trade_value * commission
    if s.capital < trade_value + trade_commission then s
    else
      { capital := s.capital - (trade_value + trade_commission)
        positions := upsertPos s.positions
          { symbol := symbol, quantity := quantity, entry_price := price
            current_price := price, side := "long" }
        trades := s.trades ++
          [{ symbol := symbol, side := "buy", quantity := quantity
             price := price, commission := trade_commission }] }

/-- BacktestingEngine._execute_sell: no-op without a position; realized
pnl = (exit - entry) * quantity, cash credited with notional minus
commission, closing trade appended, position removed. -/
def execute_sell (s : EngineState) (symbol : String)
    (price commission : ℚ) : EngineState :=
  match s.positions.find? (fun p => p.symbol == symbol) with
  | none => s
  | some position =>
    let pnl := (price - position.entry_price) * position.quantity
    let trade_value := position.quantity * price
    let trade_commission := trade_value * commission
    { capital := s.capital + (trade_value - trade_commission)
      positions := s.positions.filter fun q => q.symbol ≠ symbol
      trades := s.trades ++
        [{ symbol := symbol, side := "sell", quantity := position.quantity
           price := price, pnl := pnl, commission := trade_commission }] }

/-- The per-position body of BacktestingEngine._update_positions: remark a
position whose symbol has a price that day; Python treats both a missing
price (None) and a price of 0 as falsy and leaves such a position
untouched. -/
def markPos (prices : String → Option ℚ) (p : BPos) : BPos :=
  match prices p.symbol with
  | some c =>
    if c = 0 then p
    else { p with current_price := c
                  unrealized_pnl := (c - p.entry_price) * p.quantity }
  | none => p

/-- BacktestingEngine._update_positions. -/
def update_positions (prices : String → Option ℚ) (ps : List BPos) : List BPos :=
  ps.map (markPos prices)

/-- BacktestingEngine._check_position_exits: walk a snapshot of the open
symbols; a mark at or beyond the hard-coded 5% stop or 15% take-profit
triggers an unconditional sell at the marked price.  The take-profit check
reuses the position looked up before the stop-loss sell, exactly as the
source does. -/
def check_position_exits (s : EngineState) (commission : ℚ) : EngineState :=
  (s.positions.map fun p => p.symbol).foldl
    (fun st symbol =>
      match st.positions.find? (fun p => p.symbol == symbol) with
      | none => st
      | some position =>
        let st1 :=
          if position.current_price ≤ position.entry_price * (95/100) then
            execute_sell st symbol position.current_price commission
          else st
        if position.entry_price * (115/100) ≤ position.current_price then
          execute_sell st1 symbol position.current_price commission
        else st1)
    s

/-- BacktestingEngine._close_all_positions: sell every open position at its
last available price; symbols with no (or a falsy) price stay open. -/
def close_all_positions (s : EngineState) (prices : String → Option ℚ)
    (commission : ℚ) : EngineState :=
  (s.positions.map fun p => p.symbol).foldl
    (fun st symbol =>
      match prices symbol with
      | some c => if c = 0 then st else execute_sell st symbol c commission
      | none => st)
    s

/-- One state mutation of the simulated day sequence.  A buy step carries
the engine-level guard of _execute_trades (BUY is only executed for a
symbol without an open position, and only when the risk gate approves —
a rejected signal simply leaves the state unchanged, which the
quantification over step sequences already covers); sells, marks, the
stop/take-profit sweep and the terminal close-out are as in the source. -/
inductive Step where
  | buy (symbol : String) (price volatility commission : ℚ)
  | sell (symbol : String) (price commission : ℚ)
  | mark (prices : String → Option ℚ)
  | exits (commission : ℚ)
  | closeAll (prices : String → Option ℚ) (commission : ℚ)

/-- Apply one step to the ledger. -/
def applyStep (cfg : RMConfig) (s : EngineState) : Step → EngineState
  | Step.buy symbol price volatility commission =>
    if symbol ∈ s.positions.map BPos.symbol then s
    else execute_buy cfg s symbol price volatility commission
  | Step.sell symbol price commission => execute_sell s symbol price commission
  | Step.mark prices => { s with positions := update_positions prices s.positions }
  | Step.exits commission => check_position_exits s commission
  | Step.closeAll prices commission => close_all_positions s prices commission

/-- A whole simulated run: the reset state followed by any sequence of
steps. -/
def runSteps (cfg : RMConfig) (initial_capital : ℚ) (steps : List Step) : EngineState :=
  steps.foldl (applyStep cfg) (initState initial_capital)

/-- Mark-to-market value of the open positions (the loop of
_update_equity_curve). -/
def positionsValue (ps : List BPos) : ℚ :=
  (ps.map fun p => p.quantity * p.current_price).sum

/-- The portfolio value _update_equity_curve records: cash plus
mark-to-market position value. -/
def equity (s : EngineState) : ℚ := s.capital + positionsValue s.positions

/-- Sum of unrealized pnl of the open positions, each marked to its current
price. -/
def unrealizedSum (ps : List BPos) : ℚ :=
  (ps.map fun p => (p.current_price - p.entry_price) * p.quantity).sum

/-- Sum of realized pnl over the trade log (0 on opening trades). -/
def realizedSum (ts : List BTrade) : ℚ := (ts.map BTrade.pnl).sum

/-- Sum of all commissions paid. -/
def commissionSum (ts : List BTrade) : ℚ := (ts.map BTrade.commission).sum

/-- The equity conservation equation of the spec: equity equals initial
capital, plus realized pnl, minus commissions, plus unrealized pnl. -/
def conserved (initial_capital : ℚ) (s : EngineState) : Prop :=
  equity s =
    initial_capital + realizedSum s.trades - commissionSum s.trades
      + unrealizedSum s.positions

/-- At most one open position per symbol. -/
def keysNodup (s : EngineState) : Prop := (s.positions.map BPos.symbol).Nodup

/-- Every open position is a long one. -/
def sidesLong (s : EngineState) : Prop := ∀ p ∈ s.positions, p.side = "long"

/-- The combined ledger invariant carried through every step. -/
def EngineInv (initial_capital : ℚ) (s : EngineState) : Prop :=
  keysNodup s ∧ conserved initial_capital s ∧ sidesLong s

/-! ## Strategy variants (traders/trading_strategies.py)

Each variant receives a data snapshot dict with the keys market_data,
financial_metrics and news_sentiment.  A snapshot field of none models a
lookup that raises (a missing key, or a snapshot that is not a dict at all,
as when the engine passes a bare symbol string); the body of every
generate_signal runs inside try/except and any raised exception degrades to
HOLD. -/

/-- One row of the market_data DataFrame (only the columns the variants
read). -/
structure Bar where
  close_price : ℚ
  volume : ℚ
deriving DecidableEq

/-- One row of the financial_metrics DataFrame; none models a missing or
NaN cell (row.get of an absent column, or pd.isna). -/
structure FinRow where
  pe : Option ℚ
  revenue_growth : Option ℚ
  earnings_growth : Option ℚ
deriving DecidableEq

/-- The data snapshot dict handed to generate_signal.  Rows are
newest-first, as delivered by DatabaseHandler (ORDER BY timestamp DESC). -/
structure Snapshot where
  market_data : Option (List Bar)
  financial_metrics : Option (List FinRow)
  news_sentiment : Option (List ℚ)

/-- Reading data[key]: raises (KeyError/TypeError) when the key is not
there. -/
def getKey {α : Type} : Option α → Except String α
  | some x => Except.ok x
  | none => Except.error "KeyError"

/-- The except-handler around every variant body: an exception becomes
HOLD. -/
def catchHold : Except String String → String
  | Except.ok s => s
  | Except.error _ => "HOLD"

/-- FundamentalTrader.generate_signal body (defaults pe_threshold_low 20,
pe_threshold_high 35, growth_threshold 0.05). -/
def fundamental_core (pe_low pe_high growth : ℚ) (data : Snapshot) :
    Except String String := do
  let metrics ← getKey data.financial_metrics
  if metrics.isEmpty then return "HOLD"
  else
    match metrics.head? with
    | none => return "HOLD"
    | some latest =>
      match latest.pe, latest.revenue_growth, latest.earnings_growth with
      | some pe, some rev_growth, some earn_growth =>
        if pe < pe_low ∧ growth < rev_growth ∧ growth < earn_growth then return "BUY"
        else if pe_high < pe then return "SELL"
        else return "HOLD"
      | _, _, _ => return "HOLD"

/-- FundamentalTrader.generate_signal. -/
def fundamental_signal (pe_low pe_high growth : ℚ) (data : Snapshot) : String :=
  catchHold (fundamental_core pe_low pe_high growth data)

/-- SentimentTrader.generate_signal body (defaults sentiment_threshold 0.3,
min_articles 2). -/
def sentiment_core (threshold : ℚ) (min_articles : ℕ) (data : Snapshot) :
    Except String String := do
  let sentiment ← getKey data.news_sentiment
  if sentiment.isEmpty ∨ sentiment.length < min_articles then return "HOLD"
  else
    let avg := smean sentiment
    if threshold < avg then return "BUY"
    else if avg < -threshold then return "SELL"
    else return "HOLD"

/-- SentimentTrader.generate_signal. -/
def sentiment_signal (threshold : ℚ) (min_articles : ℕ) (data : Snapshot) : String :=
  catchHold (sentiment_core threshold min_articles data)

/-- MomentumTrader.generate_signal body (defaults lookback_period 5,
volume_threshold 1.3).  returns is close_price.pct_change(), the volume
relation divides volume by its 20-row rolling mean, and both are averaged
over the first lookback rows with pandas NaN skipping; a NaN mean fails
every comparison, exactly as float('nan') does. -/
def momentum_core (lookback : ℕ) (volume_threshold : ℚ) (data : Snapshot) :
    Except String String := do
  let df ← getKey data.market_data
  if df.isEmpty then return "HOLD"
  else
    let closes := df.map Bar.close_price
    let volumes := df.map Bar.volume
    let returns := pctChange closes
    let vol_rel := List.zipWith (fun v m => Option.map (fun mv => v / mv) m)
      volumes (rollingMean 20 volumes)
    let momentum := omean (returns.take lookback)
    let volume_signal :=
      match omean (vol_rel.take lookback) with
      | some v => decide (volume_threshold < v)
      | none => false
    match momentum with
    | none => return "HOLD"
    | some m =>
      if 1/100 < m ∧ volume_signal = true then return "BUY"
      else if m < -(1/100) ∧ volume_signal = true then return "SELL"
      else return "HOLD"

/-- MomentumTrader.generate_signal. -/
def momentum_signal (lookback : ℕ) (volume_threshold : ℚ) (data : Snapshot) : String :=
  catchHold (momentum_core lookback volume_threshold data)

/-- MeanReversionTrader.generate_signal body (defaults ma_period 20,
deviation_threshold 0.03): the close column's rolling ma_period-row moving
average, the relative deviation from it, and the deviation of row 0 (the
newest row) decides the signal; a NaN deviation fails both comparisons. -/
def mean_reversion_core (ma_period : ℕ) (threshold : ℚ) (data : Snapshot) :
    Except String String := do
  let df ← getKey data.market_data
  if df.isEmpty then return "HOLD"
  else
    let closes := df.map Bar.close_price
    let ma := rollingMean ma_period closes
    let deviation := List.zipWith
      (fun c m => Option.map (fun mv => (c - mv) / mv) m) closes ma
    match deviation.head? with
    | some (some latest_dev) =>
      if latest_dev < -threshold then return "BUY"
      else if threshold < latest_dev then return "SELL"
      else return "HOLD"
    | _ => return "HOLD"

/-- MeanReversionTrader.generate_signal. -/
def mean_reversion_signal (ma_period : ℕ) (threshold : ℚ) (data : Snapshot) : String :=
  catchHold (mean_reversion_core ma_period threshold data)

/-- MultiFactorTrader._signal_to_score. -/
def signal_to_score (signal : String) : ℚ :=
  if signal = "BUY" then 1 else if signal = "SELL" then -1 else 0

/-- MultiFactorTrader.generate_signal body (weights default 0.4/0.3/0.3);
the four sub-traders are constructed with their own defaults and their
generate_signal calls already catch internally. -/
def multifactor_core (technical_weight fundamental_weight sentiment_weight : ℚ)
    (data : Snapshot) : Except String String := do
  let m_signal := momentum_signal 5 (13/10) data
  let r_signal := mean_reversion_signal 20 (3/100) data
  let f_signal := fundamental_signal 20 35 (1/20) data
  let s_signal := sentiment_signal (3/10) 2 data
  let technical_score := (signal_to_score m_signal + signal_to_score r_signal) / 2
  let final_score := technical_score * technical_weight
    + signal_to_score f_signal * fundamental_weight
    + signal_to_score s_signal * sentiment_weight
  if 3/10 < final_score then return "BUY"
  else if final_score < -(3/10) then return "SELL"
  else return "HOLD"

/-- MultiFactorTrader.generate_signal. -/
def multifactor_signal (technical_weight fundamental_weight sentiment_weight : ℚ)
    (data : Snapshot) : String :=
  catchHold (multifactor_core technical_weight fundamental_weight sentiment_weight data)

/-- The five variants' outputs on a snapshot, in the order of the engine's
traders dict (all built with their default parameters, as in
BacktestingEngine.__init__). -/
def variant_signals (data : Snapshot) : List String :=
  [ momentum_signal 5 (13/10) data
  , mean_reversion_signal 20 (3/100) data
  , sentiment_signal (3/10) 2 data
  , fundamental_signal 20 35 (1/20) data
  , multifactor_signal (4/10) (3/10) (3/10) data ]

/-- The majority vote of BacktestingEngine._generate_signals (the branch
used when the requested strategy is not a single trader, e.g. ensemble). -/
def majority_vote (votes : List String) : String :=
  let buy_count := votes.count "BUY"
  let sell_count := votes.count "SELL"
  if sell_count < buy_count then "BUY"
  else if buy_count < sell_count then "SELL"
  else "HOLD"

/-- The engine-level ensemble signal: majority vote over the five
variants. -/
def ensemble_signal (data : Snapshot) : String :=
  majority_vote (variant_signals data)

/-! ## Metrics calculator (_calculate_results) -/

/-- Daily returns: pct change between consecutive equity snapshots. -/
def daily_returns_of (curve : List ℚ) : List ℚ :=
  List.zipWith (fun prev cur => (cur - prev) / prev) curve curve.tail

/-- The Sharpe ratio of _calculate_results: mean over np.std of the daily
returns, annualized by sqrt(252); 0 for an empty return list or a zero
standard deviation. -/
noncomputable def sharpe_of (daily_returns : List ℚ) : ℝ :=
  if daily_returns.isEmpty then 0
  else if 0 < npStd daily_returns then
    ((smean daily_returns : ℚ) : ℝ) / npStd daily_returns * Real.sqrt 252
  else 0

/-- win_rate in _calculate_results: profitable trades over ALL recorded
trades (opening trades included), as a percentage; 0 without trades. -/
def win_rate_of (trades : List BTrade) : ℚ :=
  if 0 < trades.length then
    ((trades.countP fun t => decide (0 < t.pnl)) : ℚ) / (trades.length : ℚ) * 100
  else 0

/-- trade_pnls in _calculate_results: the realized pnls of the trades with
nonzero pnl (the closing trades). -/
def closed_pnls (trades : List BTrade) : List ℚ :=
  (trades.map BTrade.pnl).filter fun x => x ≠ 0

/-- Maximum drawdown: running peak minus value, with its percentage of the
peak captured at the argmax, via one pass over the equity values. -/
def max_drawdown_of (curve : List ℚ) : ℚ × ℚ :=
  (curve.foldl
    (fun acc e =>
      let peak := max acc.1 e
      let drawdown := peak - e
      let drawdown_pct := drawdown / peak * 100
      (peak, if acc.2.1 < drawdown then (drawdown, drawdown_pct) else acc.2))
    (curve.headI, (0, 0))).2

/-- The aggregated result fields the claims inspect (equity curve, trade
list and timestamps are carried by the caller). -/
structure ResultM where
  initial_capital : ℚ
  final_capital : ℚ
  total_return : ℚ
  total_return_pct : ℚ
  sharpe_val : ℝ
  max_drawdown : ℚ
  max_drawdown_pct : ℚ
  win_rate : ℚ
  total_trades : ℕ
  profitable_trades : ℕ
  avg_trade_pnl : ℚ
  best_trade : ℚ
  worst_trade : ℚ

/-- _empty_results: the all-zero result returned for an empty equity
curve. -/
def empty_results (initial_capital : ℚ) : ResultM :=
  { initial_capital := initial_capital, final_capital := initial_capital
    total_return := 0, total_return_pct := 0, sharpe_val := 0
    max_drawdown := 0, max_drawdown_pct := 0, win_rate := 0
    total_trades := 0, profitable_trades := 0, avg_trade_pnl := 0
    best_trade := 0, worst_trade := 0 }

/-- BacktestingEngine._calculate_results over the recorded equity values
and the trade log. -/
noncomputable def calc_results (initial_capital : ℚ) (curve : List ℚ)
    (trades : List BTrade) : ResultM :=
  if curve.isEmpty then empty_results initial_capital
  else
    let initial_equity := curve.headI
    let final_equity := curve.getLastD 0
    let total_return := final_equity - initial_equity
    let daily_returns := daily_returns_of curve
    let dd := max_drawdown_of curve
    let trade_pnls := closed_pnls trades
    { initial_capital := initial_equity
      final_capital := final_equity
      total_return := total_return
      total_return_pct := total_return / initial_equity * 100
      sharpe_val := sharpe_of daily_returns
      max_drawdown := dd.1
      max_drawdown_pct := dd.2
      win_rate := win_rate_of trades
      total_trades := trades.length
      profitable_trades := trades.countP fun t => decide (0 < t.pnl)
      avg_trade_pnl := if trade_pnls.isEmpty then 0 else smean trade_pnls
      best_trade := if trade_pnls.isEmpty then 0 else listMax trade_pnls
      worst_trade := if trade_pnls.isEmpty then 0 else listMin trade_pnls }

/-! ## Statements taken verbatim from the specification, for comparison
with the code embedding. -/

/-- Modelled from the spec: position size capped by
min(max_position_size_fraction x portfolio_value, f x portfolio_value x damp,
10% x portfolio_value), with the FIRST cap term not volatility-damped. -/
def spec_position_size (cfg : RMConfig) (portfolio_value volatility : ℚ) : ℚ :=
  min (cfg.max_position_size * portfolio_value)
    (min ((((11:ℚ)/20) * cfg.take_profit_pct - ((9:ℚ)/20) * cfg.stop_loss_pct)
        / cfg.take_profit_pct * portfolio_value * (1 / (1 + volatility * 10)))
      (portfolio_value * (1/10)))

/-- Modelled from the spec: win rate = 100 x profitable trades over the
CLOSED trades (the trades with nonzero realized pnl). -/
def spec_win_rate (trades : List BTrade) : ℚ :=
  100 * ((trades.countP fun t => decide (0 < t.pnl)) : ℚ)
    / ((closed_pnls trades).length : ℚ)

/-- Modelled from the spec: the deviation of the latest close from its
M-day moving average, as a fraction of that average, on a newest-first
close series. -/
def spec_ma_deviation (M : ℕ) (closes : List ℚ) : ℚ :=
  let ma := smean (closes.take M)
  (closes.headI - ma) / ma

/-- The three legal signal strings. -/
def signalStrings : List String := ["BUY", "SELL", "HOLD"]

/-! # Theorems -/

/-! ## Ledger invariant machinery -/

/-- Removing the found entry from a keyed list with unique keys subtracts
exactly its summand. -/
theorem sum_map_filter_ne (f : BPos → ℚ) (ps : List BPos) (sym : String) (p : BPos)
    (hnd : (ps.map BPos.symbol).Nodup)
    (hfind : ps.find? (fun q => q.symbol == sym) = some p) :
    ((ps.filter fun q => q.symbol ≠ sym).map f).sum = (ps.map f).sum - f p := by
  induction ps with
  | nil => simp at hfind
  | cons q rest ih =>
    simp only [List.map_cons, List.nodup_cons] at hnd
    rw [List.find?_cons_eq_some] at hfind
    by_cases hq : q.symbol = sym
    · have hp : q = p := by
        rcases hfind with ⟨_, h⟩ | ⟨h, _⟩
        · exact h
        · simp [hq] at h
      subst hp
      have hrest : rest.filter (fun r : BPos => r.symbol ≠ sym) = rest := by
        rw [List.filter_eq_self]
        intro a ha
        simp only [ne_eq, decide_not, Bool.not_eq_true', decide_eq_false_iff_not]
        intro he
        exact hnd.1 (hq ▸ he ▸ List.mem_map_of_mem BPos.symbol ha)
      rw [List.filter_cons_of_neg (by simp [hq]), hrest, List.map_cons, List.sum_cons]
      ring
    · rcases hfind with ⟨h, _⟩ | ⟨_, h⟩
      · simp [hq] at h
      · have hrec := ih hnd.2 h
        rw [List.filter_cons_of_pos (by simp [hq]), List.map_cons, List.sum_cons, hrec,
          List.map_cons, List.sum_cons]
        ring

/-- The found entry has the searched symbol and belongs to the list. -/
theorem find?_symbol_eq (ps : List BPos) (sym : String) (p : BPos)
    (hfind : ps.find? (fun q => q.symbol == sym) = some p) :
    p.symbol = sym ∧ p ∈ ps := by
  refine ⟨?_, List.mem_of_find?_eq_some hfind⟩
  have := List.find?_some hfind
  simpa using this

/-- Remarking preserves the symbol, the quantity, the entry price and the
side of a position. -/
theorem markPos_fields (prices : String → Option ℚ) (p : BPos) :
    (markPos prices p).symbol = p.symbol
    ∧ (markPos prices p).quantity = p.quantity
    ∧ (markPos prices p).entry_price = p.entry_price
    ∧ (markPos prices p).side = p.side := by
  unfold markPos
  split
  · split_ifs <;> exact ⟨rfl, rfl, rfl, rfl⟩
  · exact ⟨rfl, rfl, rfl, rfl⟩

/-- Remarking changes value and unrealized pnl by the same amount: the
quantity times the entry price is untouched. -/
theorem markPos_basis (prices : String → Option ℚ) (p : BPos) :
    (markPos prices p).quantity * (markPos prices p).current_price
      - ((markPos prices p).current_price - (markPos prices p).entry_price)
        * (markPos prices p).quantity
    = p.quantity * p.current_price
      - (p.current_price - p.entry_price) * p.quantity := by
  obtain ⟨-, hq, he, -⟩ := markPos_fields prices p
  rw [hq, he]
  ring

/-- Remarking changes no symbols. -/
theorem update_positions_symbols (prices : String → Option ℚ) (ps : List BPos) :
    (update_positions prices ps).map BPos.symbol = ps.map BPos.symbol := by
  induction ps with
  | nil => rfl
  | cons q rest ih =>
    simp only [update_positions, List.map_cons] at ih ⊢
    rw [(markPos_fields prices q).1, ih]

/-- The cost basis of the book is unchanged by a remark. -/
theorem update_positions_basis (prices : String → Option ℚ) (ps : List BPos) :
    positionsValue (update_positions prices ps)
      - unrealizedSum (update_positions prices ps)
    = positionsValue ps - unrealizedSum ps := by
  induction ps with
  | nil => rfl
  | cons q rest ih =>
    simp only [update_positions, positionsValue, unrealizedSum, List.map_cons,
      List.sum_cons] at ih ⊢
    have hb := markPos_basis prices q
    linarith [ih, hb]

/-- The invariant survives _execute_sell. -/
theorem inv_execute_sell (c0 : ℚ) (s : EngineState) (sym : String)
    (price commission : ℚ) (hinv : EngineInv c0 s) :
    EngineInv c0 (execute_sell s sym price commission) := by
  obtain ⟨hnd, hcons, hlong⟩ := hinv
  unfold execute_sell
  cases hfind : s.positions.find? (fun q => q.symbol == sym) with
  | none => exact ⟨hnd, hcons, hlong⟩
  | some p =>
    obtain ⟨hpsym, hpmem⟩ := find?_symbol_eq _ _ _ hfind
    refine ⟨?_, ?_, ?_⟩
    · exact List.Nodup.sublist
        (List.Sublist.map BPos.symbol (List.filter_sublist _)) hnd
    · have hv := sum_map_filter_ne (fun q => q.quantity * q.current_price)
        s.positions sym p hnd hfind
      have hu := sum_map_filter_ne (fun q => (q.current_price - q.entry_price) * q.quantity)
        s.positions sym p hnd hfind
      unfold conserved equity positionsValue unrealizedSum realizedSum commissionSum at hcons ⊢
      simp only [List.map_append, List.sum_append, List.map_cons, List.sum_cons,
        List.map_nil, List.sum_nil]
      rw [hv, hu]
      simp only []
      linarith [hcons]
    · intro q hq
      exact hlong q (List.mem_of_mem_filter hq)

/-- The invariant survives an engine-level buy (the _execute_trades path:
only for a symbol without an open position). -/
theorem inv_execute_buy (cfg : RMConfig) (c0 : ℚ) (s : EngineState) (sym : String)
    (price volatility commission : ℚ) (hinv : EngineInv c0 s)
    (hmem : sym ∉ s.positions.map BPos.symbol) :
    EngineInv c0 (execute_buy cfg s sym price volatility commission) := by
  obtain ⟨hnd, hcons, hlong⟩ := hinv
  simp only [execute_buy]
  split_ifs with h1 h2
  · exact ⟨hnd, hcons, hlong⟩
  · exact ⟨hnd, hcons, hlong⟩
  · have hfilter : s.positions.filter (fun q => q.symbol ≠ sym) = s.positions := by
      apply List.filter_eq_self.mpr
      intro a ha
      have : a.symbol ≠ sym := by
        intro he
        exact hmem (he ▸ List.mem_map_of_mem BPos.symbol ha)
      simpa using this
    refine ⟨?_, ?_, ?_⟩
    · unfold keysNodup
      simp only [upsertPos, hfilter, List.map_append, List.map_cons, List.map_nil]
      rw [List.nodup_append]
      exact ⟨hnd, List.nodup_singleton _, by simpa [List.Disjoint] using fun he => hmem he⟩
    · unfold conserved equity positionsValue unrealizedSum realizedSum commissionSum at hcons ⊢
      simp only [upsertPos, hfilter, List.map_append, List.sum_append, List.map_cons,
        List.sum_cons, List.map_nil, List.sum_nil]
      linarith [hcons]
    · intro q hq
      simp only [upsertPos, hfilter, List.mem_append, List.mem_cons, List.not_mem_nil,
        or_false] at hq
      cases hq with
      | inl h => exact hlong q h
      | inr h => rw [h]

/-- The invariant survives a remark of the open positions. -/
theorem inv_mark (c0 : ℚ) (s : EngineState) (prices : String → Option ℚ)
    (hinv : EngineInv c0 s) :
    EngineInv c0 { s with positions := update_positions prices s.positions } := by
  obtain ⟨hnd, hcons, hlong⟩ := hinv
  refine ⟨?_, ?_, ?_⟩
  · unfold keysNodup at hnd ⊢
    simpa [update_positions_symbols] using hnd
  · unfold conserved equity at hcons ⊢
    have := update_positions_basis prices s.positions
    simp only at hcons ⊢
    linarith [hcons, this]
  · intro q hq
    simp only [update_positions, List.mem_map] at hq
    obtain ⟨p, hp, hpq⟩ := hq
    rw [← hpq, (markPos_fields prices p).2.2.2]
    exact hlong p hp

/-- Invariants are preserved by folds of invariant-preserving updates. -/
theorem inv_foldl {α : Type} (c0 : ℚ) (g : EngineState → α → EngineState)
    (h : ∀ st a, EngineInv c0 st → EngineInv c0 (g st a)) :
    ∀ (l : List α) (s : EngineState), EngineInv c0 s → EngineInv c0 (l.foldl g s) := by
  intro l
  induction l with
  | nil => intro s hs; exact hs
  | cons a t ih => intro s hs; exact ih (g s a) (h s a hs)

/-- The invariant survives the stop-loss/take-profit sweep. -/
theorem inv_exits (c0 : ℚ) (s : EngineState) (commission : ℚ)
    (hinv : EngineInv c0 s) :
    EngineInv c0 (check_position_exits s commission) := by
  unfold check_position_exits
  refine inv_foldl c0 _ ?_ _ s hinv
  intro st sym hst
  cases hfind : st.positions.find? (fun p => p.symbol == sym) with
  | none => simpa [hfind] using hst
  | some position =>
    simp only [hfind]
    split_ifs with h1 h2 h3 <;>
      first
        | exact inv_execute_sell c0 _ sym _ commission
            (inv_execute_sell c0 st sym _ commission hst)
        | exact inv_execute_sell c0 st sym _ commission hst
        | exact hst

/-- The invariant survives the terminal close-out sweep. -/
theorem inv_close_all (c0 : ℚ) (s : EngineState) (prices : String → Option ℚ)
    (commission : ℚ) (hinv : EngineInv c0 s) :
    EngineInv c0 (close_all_positions s prices commission) := by
  unfold close_all_positions
  refine inv_foldl c0 _ ?_ _ s hinv
  intro st sym hst
  cases hp : prices sym with
  | none => simpa [hp] using hst
  | some c =>
    simp only [hp]
    split_ifs with h1
    · exact hst
    · exact inv_execute_sell c0 st sym c commission hst

/-- The invariant survives every step. -/
theorem inv_applyStep (cfg : RMConfig) (c0 : ℚ) (s : EngineState) (step : Step)
    (hinv : EngineInv c0 s) : EngineInv c0 (applyStep cfg s step) := by
  cases step with
  | buy sym price vol commission =>
    simp only [applyStep]
    split_ifs with h1
    · exact hinv
    · exact inv_execute_buy cfg c0 s sym price vol commission hinv h1
  | sell sym price commission => exact inv_execute_sell c0 s sym price commission hinv
  | mark prices => exact inv_mark c0 s prices hinv
  | exits commission => exact inv_exits c0 s commission hinv
  | closeAll prices commission => exact inv_close_all c0 s prices commission hinv

/-- The invariant holds after any run from the reset state. -/
theorem inv_runSteps (cfg : RMConfig) (c0 : ℚ) (steps : List Step) :
    EngineInv c0 (runSteps cfg c0 steps) := by
  unfold runSteps
  refine inv_foldl c0 _ (fun st a h => inv_applyStep cfg c0 st a h) steps _ ?_
  refine ⟨List.nodup_nil, ?_, fun p hp => absurd hp (List.not_mem_nil p)⟩
  unfold conserved equity positionsValue unrealizedSum realizedSum commissionSum initState
  simp

/-- The seed of a max fold is a lower bound of the result. -/
theorem le_foldl_max (t : List ℚ) (a : ℚ) : a ≤ t.foldl max a := by
  induction t generalizing a with
  | nil => exact le_refl a
  | cons b tb ih => exact le_trans (le_max_left a b) (ih (max a b))

/-- Every member of the list is bounded by the max fold. -/
theorem mem_le_foldl_max (t : List ℚ) (a x : ℚ) (hx : x ∈ t) : x ≤ t.foldl max a := by
  induction t generalizing a with
  | nil => cases hx
  | cons b tb ih =>
    rcases List.mem_cons.mp hx with h | h
    · subst h
      exact le_trans (le_max_right a x) (le_foldl_max tb _)
    · exact ih _ h

/-- The max fold is the seed or a member of the list. -/
theorem foldl_max_mem (t : List ℚ) (a : ℚ) : t.foldl max a = a ∨ t.foldl max a ∈ t := by
  induction t generalizing a with
  | nil => exact Or.inl rfl
  | cons b tb ih =>
    rcases ih (max a b) with h | h
    · rcases max_cases a b with ⟨hm, -⟩ | ⟨hm, -⟩
      · exact Or.inl (by rw [List.foldl_cons, h, hm])
      · exact Or.inr (List.mem_cons.mpr (Or.inl (by rw [List.foldl_cons, h, hm])))
    · exact Or.inr (List.mem_cons.mpr (Or.inr h))

/-- The seed of a min fold is an upper bound of the result. -/
theorem foldl_min_le (t : List ℚ) (a : ℚ) : t.foldl min a ≤ a := by
  induction t generalizing a with
  | nil => exact le_refl a
  | cons b tb ih => exact le_trans (ih (min a b)) (min_le_left a b)

/-- The min fold bounds every member of the list from below. -/
theorem foldl_min_le_mem (t : List ℚ) (a x : ℚ) (hx : x ∈ t) : t.foldl min a ≤ x := by
  induction t generalizing a with
  | nil => cases hx
  | cons b tb ih =>
    rcases List.mem_cons.mp hx with h | h
    · subst h
      exact le_trans (foldl_min_le tb _) (min_le_right a x)
    · exact ih _ h

/-- The min fold is the seed or a member of the list. -/
theorem foldl_min_mem (t : List ℚ) (a : ℚ) : t.foldl min a = a ∨ t.foldl min a ∈ t := by
  induction t generalizing a with
  | nil => exact Or.inl rfl
  | cons b tb ih =>
    rcases ih (min a b) with h | h
    · rcases min_cases a b with ⟨hm, -⟩ | ⟨hm, -⟩
      · exact Or.inl (by rw [List.foldl_cons, h, hm])
      · exact Or.inr (List.mem_cons.mpr (Or.inl (by rw [List.foldl_cons, h, hm])))
    · exact Or.inr (List.mem_cons.mpr (Or.inr h))

/-- Python max of a nonempty list is a member. -/
theorem listMax_mem (l : List ℚ) (hl : l ≠ []) : listMax l ∈ l := by
  cases l with
  | nil => exact absurd rfl hl
  | cons h t =>
    show t.foldl max h ∈ h :: t
    rcases foldl_max_mem t h with he | hm
    · rw [he]; exact List.mem_cons_self h t
    · exact List.mem_cons.mpr (Or.inr hm)

/-- Python max of a nonempty list bounds every member. -/
theorem le_listMax (l : List ℚ) (x : ℚ) (hx : x ∈ l) : x ≤ listMax l := by
  cases l with
  | nil => cases hx
  | cons h t =>
    show x ≤ t.foldl max h
    rcases List.mem_cons.mp hx with he | hm
    · subst he; exact le_foldl_max t x
    · exact mem_le_foldl_max t h x hm

/-- Python min of a nonempty list is a member. -/
theorem listMin_mem (l : List ℚ) (hl : l ≠ []) : listMin l ∈ l := by
  cases l with
  | nil => exact absurd rfl hl
  | cons h t =>
    show t.foldl min h ∈ h :: t
    rcases foldl_min_mem t h with he | hm
    · rw [he]; exact List.mem_cons_self h t
    · exact List.mem_cons.mpr (Or.inr hm)

/-- Python min of a nonempty list bounds every member from below. -/
theorem listMin_le (l : List ℚ) (x : ℚ) (hx : x ∈ l) : listMin l ≤ x := by
  cases l with
  | nil => cases hx
  | cons h t =>
    show t.foldl min h ≤ x
    rcases List.mem_cons.mp hx with he | hm
    · subst he; exact foldl_min_le t x
    · exact foldl_min_le_mem t h x hm

/-- C5 (code bug): the Mean-Reversion variant can never signal.  pandas
rolling windows run over positionally preceding rows, so on the
newest-first frame the moving average at row 0 — the row the code reads
with iloc[0] — is NaN whenever ma_period is at least 2, the deviation is
NaN, both threshold comparisons are false, and the variant returns HOLD on
every snapshot.  At the concrete failing input (latest close 90 after 19
bars at 100, a deviation of -19/199, about -9.5%, well below the -3%
threshold) the spec says BUY; the code holds. -/
theorem mean_reversion_hold_thm :
    (∀ (ma_period : ℕ) (threshold : ℚ) (data : Snapshot), 2 ≤ ma_period →
      mean_reversion_signal ma_period threshold data = "HOLD")
    ∧ spec_ma_deviation 20 ((90:ℚ) :: List.replicate 19 100) < -(3/100)
    ∧ mean_reversion_signal 20 (3/100)
        ⟨some ((⟨90, 0⟩ : Bar) :: List.replicate 19 ⟨100, 0⟩), none, none⟩ = "HOLD" := by
  have hold : ∀ (ma_period : ℕ) (threshold : ℚ) (data : Snapshot), 2 ≤ ma_period →
      mean_reversion_signal ma_period threshold data = "HOLD" := by
    intro ma_period threshold data hw
    unfold mean_reversion_signal mean_reversion_core
    cases hOpt : data.market_data with
    | none => rfl
    | some df =>
      cases df with
      | nil => rfl
      | cons b rest =>
        simp only [getKey, bind, Except.bind, List.isEmpty_cons, List.map_cons]
        have hma : rollingMean ma_period (b.close_price :: rest.map Bar.close_price)
            = (if ma_period ≤ 0 + 1 then
                some (smean ((((b.close_price :: rest.map Bar.close_price)).take (0 + 1)).drop (0 + 1 - ma_period)))
              else none)
              :: (List.range (rest.map Bar.close_price).length).map
                (fun i => if ma_period ≤ (i + 1) + 1 then
                    some (smean ((((b.close_price :: rest.map Bar.close_price)).take ((i + 1) + 1)).drop ((i + 1) + 1 - ma_period)))
                  else none) := by
          unfold rollingMean
          rw [List.length_cons, List.range_succ_eq_map, List.map_cons, List.map_map]
          rfl
        rw [hma, if_neg (show ¬ (ma_period ≤ 0 + 1) by omega)]
        simp [List.zipWith]
        rfl
  refine ⟨hold, by norm_num [spec_ma_deviation, smean], hold 20 (3/100) _ (by norm_num)⟩

/-- Witness for C5's always-HOLD theorem, applied at window 20 and the
engine's snapshot degenerate case. -/
theorem mean_reversion_hold_witness :
    mean_reversion_signal 20 (3/100) ⟨none, none, none⟩ = "HOLD" :=
  mean_reversion_hold_thm.1 20 (3/100) ⟨none, none, none⟩ (by norm_num)

/-- C1: equity conservation.  After every simulated step sequence, the
recorded equity (cash plus mark-to-market value of the open positions)
equals the initial capital plus the realized pnl of all trades so far,
minus all commissions paid, plus the unrealized pnl of the open
positions. -/
theorem equity_conservation_thm (cfg : RMConfig) (initial_capital : ℚ)
    (steps : List Step) :
    equity (runSteps cfg initial_capital steps) =
      initial_capital
        + realizedSum (runSteps cfg initial_capital steps).trades
        - commissionSum (runSteps cfg initial_capital steps).trades
        + unrealizedSum (runSteps cfg initial_capital steps).positions :=
  (inv_runSteps cfg initial_capital steps).2.1

/-- C10: the engine is long-only — every position an engine run holds has
side long — and _execute_sell books realized pnl as
(exit - entry) x quantity with no sign-flipped branch for the side the
data model also admits. -/
theorem long_only_thm :
    (∀ (cfg : RMConfig) (c0 : ℚ) (steps : List Step) (p : BPos),
      p ∈ (runSteps cfg c0 steps).positions → p.side = "long")
    ∧ (∀ (s : EngineState) (sym : String) (price commission : ℚ) (p : BPos),
      s.positions.find? (fun q => q.symbol == sym) = some p →
      (execute_sell s sym price commission).trades =
        s.trades ++
          [{ symbol := sym, side := "sell", quantity := p.quantity, price := price
             pnl := (price - p.entry_price) * p.quantity
             commission := p.quantity * price * commission }]) := by
  constructor
  · intro cfg c0 steps p hp
    exact (inv_runSteps cfg c0 steps).2.2 p hp
  · intro s sym price commission p hfind
    unfold execute_sell
    rw [hfind]

/-- Witness for C10: after one concrete buy the single open position is
long, and a sell against a hypothetical short position still books
(exit - entry) x quantity = (50 - 100) x 2 = -100. -/
theorem long_only_witness :
    (⟨"A", 10, 100, 100, "long", 0⟩ : BPos).side = "long"
    ∧ (execute_sell ⟨1000, [⟨"A", 2, 100, 100, "short", 0⟩], []⟩ "A" 50 0).trades =
        [⟨"A", "sell", 2, 50, -100, 0⟩] := by
  constructor
  · exact long_only_thm.1 backtestConfig 10000 [Step.buy "A" 100 0 0]
      ⟨"A", 10, 100, 100, "long", 0⟩
      (by norm_num [runSteps, applyStep, initState, execute_buy, buy_size,
        calculate_position_size, backtestConfig, min_def, upsertPos])
  · have h := long_only_thm.2 ⟨1000, [⟨"A", 2, 100, 100, "short", 0⟩], []⟩ "A" 50 0
      ⟨"A", 2, 100, 100, "short", 0⟩ (by rfl)
    simpa [show ((50:ℚ) - 100) * 2 = -100 by norm_num,
      show (2:ℚ) * 50 * 0 = 0 by norm_num] using h

/-- C3 (amended): for a nonempty equity curve, the reported win rate is
100 x profitable trades over ALL recorded trades (opening buys included,
not just the closed ones), and avg/best/worst trade pnl are the mean,
maximum and minimum over the trades with nonzero realized pnl. -/
theorem trade_stats_thm (c0 : ℚ) (curve : List ℚ) (trades : List BTrade)
    (hc : curve ≠ []) :
    (calc_results c0 curve trades).win_rate * (trades.length : ℚ)
      = 100 * ((trades.countP fun t => decide (0 < t.pnl)) : ℚ)
    ∧ (calc_results c0 curve trades).avg_trade_pnl * ((closed_pnls trades).length : ℚ)
      = (closed_pnls trades).sum
    ∧ (∀ x ∈ closed_pnls trades,
        x ≤ (calc_results c0 curve trades).best_trade
        ∧ (calc_results c0 curve trades).worst_trade ≤ x)
    ∧ (closed_pnls trades ≠ [] →
        (calc_results c0 curve trades).best_trade ∈ closed_pnls trades
        ∧ (calc_results c0 curve trades).worst_trade ∈ closed_pnls trades) := by
  have hne : curve.isEmpty = false := by
    cases curve with
    | nil => exact absurd rfl hc
    | cons a t => rfl
  have hres : calc_results c0 curve trades
      = { initial_capital := curve.headI
          final_capital := curve.getLastD 0
          total_return := curve.getLastD 0 - curve.headI
          total_return_pct := (curve.getLastD 0 - curve.headI) / curve.headI * 100
          sharpe_val := sharpe_of (daily_returns_of curve)
          max_drawdown := (max_drawdown_of curve).1
          max_drawdown_pct := (max_drawdown_of curve).2
          win_rate := win_rate_of trades
          total_trades := trades.length
          profitable_trades := trades.countP fun t => decide (0 < t.pnl)
          avg_trade_pnl := if (closed_pnls trades).isEmpty then 0
            else smean (closed_pnls trades)
          best_trade := if (closed_pnls trades).isEmpty then 0
            else listMax (closed_pnls trades)
          worst_trade := if (closed_pnls trades).isEmpty then 0
            else listMin (closed_pnls trades) } := by
    unfold calc_results
    rw [if_neg (by simp [hne])]
  rw [hres]
  refine ⟨?_, ?_, ?_, ?_⟩
  · simp only [win_rate_of]
    by_cases hlen : 0 < trades.length
    · rw [if_pos hlen]
      have hnz : (trades.length : ℚ) ≠ 0 := by
        exact_mod_cast Nat.pos_iff_ne_zero.mp hlen
      field_simp
      ring
    · rw [if_neg hlen]
      have : trades = [] := List.length_eq_zero.mp (by omega)
      subst this
      simp
  · simp only []
    by_cases hcl : (closed_pnls trades).isEmpty
    · rw [if_pos hcl]
      have : closed_pnls trades = [] := by
        cases hc2 : closed_pnls trades with
        | nil => rfl
        | cons a t => rw [hc2] at hcl; simp at hcl
      rw [this]
      simp
    · rw [if_neg hcl]
      have hnil : closed_pnls trades ≠ [] := by
        intro h
        rw [h] at hcl
        simp at hcl
      have hnz : ((closed_pnls trades).length : ℚ) ≠ 0 := by
        have := List.length_pos.mpr hnil
        exact_mod_cast Nat.pos_iff_ne_zero.mp this
      unfold smean
      field_simp
  · intro x hx
    have hnil : closed_pnls trades ≠ [] := by
      intro h
      rw [h] at hx
      cases hx
    have hcl : (closed_pnls trades).isEmpty = false := by
      cases hc2 : closed_pnls trades with
      | nil => exact absurd hc2 hnil
      | cons a t => rfl
    simp only [hcl, Bool.false_eq_true, if_false]
    exact ⟨le_listMax _ x hx, listMin_le _ x hx⟩
  · intro hnil
    have hcl : (closed_pnls trades).isEmpty = false := by
      cases hc2 : closed_pnls trades with
      | nil => exact absurd hc2 hnil
      | cons a t => rfl
    simp only [hcl, Bool.false_eq_true, if_false]
    exact ⟨listMax_mem _ hnil, listMin_mem _ hnil⟩

/-- Witness for C3's amended theorem on a concrete curve and trade log:
one opening buy with zero pnl and one closing sell with pnl 5; the win
rate is 50 (1 winner over 2 recorded trades) and the best trade, 5, is a
member of the closed-pnl set. -/
theorem trade_stats_witness :
    (calc_results 100000 [100000, 100005]
        [⟨"A", "buy", 1, 100, 0, 0⟩, ⟨"A", "sell", 1, 105, 5, 0⟩]).win_rate * 2
      = 100
    ∧ (calc_results 100000 [100000, 100005]
        [⟨"A", "buy", 1, 100, 0, 0⟩, ⟨"A", "sell", 1, 105, 5, 0⟩]).best_trade
        ∈ closed_pnls [⟨"A", "buy", 1, 100, 0, 0⟩, ⟨"A", "sell", 1, 105, 5, 0⟩] := by
  have h := trade_stats_thm 100000 [100000, 100005]
    [⟨"A", "buy", 1, 100, 0, 0⟩, ⟨"A", "sell", 1, 105, 5, 0⟩] (by simp)
  refine ⟨?_, (h.2.2.2 (by decide)).1⟩
  have h1 := h.1
  norm_num [List.countP, List.countP.go] at h1 ⊢
  linarith [h1]

/-- C3 (counterexample): with the same two trades the code reports a win
rate of 50 — it divides by ALL trades, the opening buy included — while
the claimed formula (dividing by the closed trades) gives 100. -/
theorem win_rate_counterexample :
    (calc_results 100000 [100000, 100005]
        [⟨"A", "buy", 1, 100, 0, 0⟩, ⟨"A", "sell", 1, 105, 5, 0⟩]).win_rate = 50
    ∧ spec_win_rate [⟨"A", "buy", 1, 100, 0, 0⟩, ⟨"A", "sell", 1, 105, 5, 0⟩] = 100
    ∧ (calc_results 100000 [100000, 100005]
        [⟨"A", "buy", 1, 100, 0, 0⟩, ⟨"A", "sell", 1, 105, 5, 0⟩]).win_rate
      ≠ spec_win_rate [⟨"A", "buy", 1, 100, 0, 0⟩, ⟨"A", "sell", 1, 105, 5, 0⟩] := by
  have h1 : (calc_results 100000 [100000, 100005]
      [⟨"A", "buy", 1, 100, 0, 0⟩, ⟨"A", "sell", 1, 105, 5, 0⟩]).win_rate = 50 := by
    unfold calc_results
    rw [if_neg (by simp)]
    simp only [win_rate_of]
    norm_num [List.countP, List.countP.go]
  have h2 : spec_win_rate [(⟨"A", "buy", 1, 100, 0, 0⟩ : BTrade),
      ⟨"A", "sell", 1, 105, 5, 0⟩] = 100 := by
    unfold spec_win_rate closed_pnls
    norm_num [List.countP, List.countP.go]
  exact ⟨h1, h2, by rw [h1, h2]; norm_num⟩

/-- A daily-return breach and a drawdown breach alone already score
3 + 3 = 6: the risk level is CRITICAL whatever the other two checks add. -/
theorem risk_level_critical_of (cfg : RMConfig) (dr dd : ℚ) (vol : ℝ) (n : ℕ)
    (h1 : cfg.max_daily_loss < |dr|) (h2 : cfg.max_drawdown < |dd|) :
    determine_risk_level cfg dr dd vol n = RiskLevel.critical := by
  simp only [determine_risk_level]
  rw [if_pos h1, if_pos h2, if_pos (by omega)]

/-- The fields of calculate_portfolio_risk on a nonempty book. -/
theorem portfolio_risk_fields (cfg : RMConfig) (positions : List RPosition)
    (V corr : ℚ) (h : positions ≠ []) :
    (calculate_portfolio_risk cfg positions V corr).daily_pnl
      = (positions.map position_pnl).sum * (1/10)
    ∧ (calculate_portfolio_risk cfg positions V corr).correlation_score = corr
    ∧ (calculate_portfolio_risk cfg positions V corr).risk_level
      = determine_risk_level cfg ((positions.map position_pnl).sum * (1/10) / V)
          (min 0 ((positions.map position_pnl).sum / V))
          (if 1 < (positions.map fun p => p.quantity * p.current_price).length
            then npStd (positions.map fun p => p.quantity * p.current_price)
              / ((smean (positions.map fun p => p.quantity * p.current_price) : ℚ) : ℝ)
            else 0)
          positions.length := by
  unfold calculate_portfolio_risk
  rw [if_neg (by simp [h])]
  exact ⟨rfl, rfl, rfl⟩

/-- C2 (amended): at CRITICAL portfolio risk level should_trade rejects
EVERY signal, exit signals included; at HIGH risk level it rejects
non-SELL signals, and a SELL on a symbol with an open position passes the
whole gate (with a positive portfolio value, the engine's drawdown limit
of at most ten times the daily-loss limit, and a correlation score within
bounds, the later checks cannot fire at HIGH). -/
theorem risk_gate_thm (cfg : RMConfig) (positions : List RPosition)
    (symbol signal : String) (V corr : ℚ) :
    ((calculate_portfolio_risk cfg positions V corr).risk_level = RiskLevel.critical →
      (should_trade cfg positions symbol signal V corr).1 = false)
    ∧ ((calculate_portfolio_risk cfg positions V corr).risk_level = RiskLevel.high →
       signal ≠ "SELL" →
      (should_trade cfg positions symbol signal V corr).1 = false)
    ∧ ((calculate_portfolio_risk cfg positions V corr).risk_level = RiskLevel.high →
       0 < V → cfg.max_drawdown ≤ 10 * cfg.max_daily_loss → corr ≤ 7/10 →
       symbol ∈ positions.map RPosition.symbol →
      should_trade cfg positions symbol "SELL" V corr = (true, "Trade approved")) := by
  refine ⟨fun hcrit => ?_, fun hhigh hsig => ?_, fun hhigh hV hcfg hcorr hmem => ?_⟩
  · simp only [should_trade]
    split_ifs with h1 h2 <;> rfl
  · simp only [should_trade]
    split_ifs with h1 h2 h3 h4 h5 <;>
      first | rfl | exact absurd (And.intro hhigh hsig) h3
  · have hnil : positions ≠ [] := by
      intro he
      rw [he] at hmem
      simp at hmem
    obtain ⟨hdp, hcs, hrl⟩ := portfolio_risk_fields cfg positions V corr hnil
    simp only [should_trade]
    rw [if_neg (fun hand => hand.2 hmem)]
    rw [if_neg (by rw [hhigh]; simp)]
    rw [if_neg (by intro hand; exact hand.2 rfl)]
    have hdaily : ¬ ((calculate_portfolio_risk cfg positions V corr).daily_pnl
        < -(V * cfg.max_daily_loss)) := by
      intro hd
      rw [hdp] at hd
      set t := (positions.map position_pnl).sum with ht
      have hdr : cfg.max_daily_loss < |t * (1/10) / V| := by
        have hlt : cfg.max_daily_loss < -(t * (1/10) / V) := by
          rw [lt_neg, div_lt_iff₀ hV]
          nlinarith [hd]
        calc cfg.max_daily_loss < -(t * (1/10) / V) := hlt
          _ ≤ |t * (1/10) / V| := neg_le_abs _
      have htV : t / V < -(10 * cfg.max_daily_loss) := by
        rw [div_lt_iff₀ hV]
        nlinarith [hd]
      have hdd : cfg.max_drawdown < |min 0 (t / V)| := by
        rcases le_or_lt (t / V) 0 with hle | hlt
        · rw [min_eq_right hle, abs_of_nonpos hle]
          nlinarith [htV, hcfg]
        · rw [min_eq_left (le_of_lt hlt), abs_zero]
          nlinarith [htV, hcfg, hlt]
      have hcrit := risk_level_critical_of cfg (t * (1/10) / V) (min 0 (t / V))
        (if 1 < (positions.map fun p => p.quantity * p.current_price).length
          then npStd (positions.map fun p => p.quantity * p.current_price)
            / ((smean (positions.map fun p => p.quantity * p.current_price) : ℚ) : ℝ)
          else 0)
        positions.length hdr hdd
      rw [hrl, hcrit] at hhigh
      exact RiskLevel.noConfusion hhigh
    rw [if_neg hdaily]
    rw [if_neg (by rw [hcs]; exact not_lt.mpr hcorr)]

/-- Witness for C2's amended theorem: one long position entered at 100 and
marked at 70 on a 100 portfolio scores 1 (half daily breach) + 3 (full
drawdown breach) = 4, i.e. HIGH, and a SELL on that symbol passes the
gate. -/
theorem risk_gate_witness :
    should_trade backtestConfig [⟨"A", 1, 100, 70, "long", none, none⟩]
      "A" "SELL" 100 0 = (true, "Trade approved") := by
  have hhigh : (calculate_portfolio_risk backtestConfig
      [⟨"A", 1, 100, 70, "long", none, none⟩] 100 0).risk_level = RiskLevel.high := by
    have h := (portfolio_risk_fields backtestConfig
      [⟨"A", 1, 100, 70, "long", none, none⟩] 100 0 (by simp)).2.2
    rw [h]
    have hsum : (([⟨"A", 1, 100, 70, "long", none, none⟩] : List RPosition).map
        position_pnl).sum = -30 := by
      norm_num [position_pnl]
    rw [hsum]
    simp only [determine_risk_level]
    norm_num [backtestConfig, abs_of_pos]
  exact (risk_gate_thm backtestConfig [⟨"A", 1, 100, 70, "long", none, none⟩]
    "A" "SELL" 100 0).2.2 hhigh (by norm_num)
    (by norm_num [backtestConfig]) (by norm_num) (by simp)

/-- C2 (counterexample): a single long position entered at 100 and marked
at 40 on a 100 portfolio scores 3 + 3 = 6, the computed risk level is
CRITICAL, and should_trade rejects even the SELL exit signal on that very
symbol — the gate does NOT spare exits at CRITICAL. -/
theorem risk_gate_counterexample :
    (calculate_portfolio_risk backtestConfig
        [⟨"A", 1, 100, 40, "long", none, none⟩] 100 0).risk_level = RiskLevel.critical
    ∧ (should_trade backtestConfig [⟨"A", 1, 100, 40, "long", none, none⟩]
        "A" "SELL" 100 0).1 = false := by
  have hcrit : (calculate_portfolio_risk backtestConfig
      [⟨"A", 1, 100, 40, "long", none, none⟩] 100 0).risk_level = RiskLevel.critical := by
    have h := (portfolio_risk_fields backtestConfig
      [⟨"A", 1, 100, 40, "long", none, none⟩] 100 0 (by simp)).2.2
    rw [h]
    have hsum : (([⟨"A", 1, 100, 40, "long", none, none⟩] : List RPosition).map
        position_pnl).sum = -60 := by
      norm_num [position_pnl]
    rw [hsum]
    apply risk_level_critical_of
    · norm_num [backtestConfig, abs_of_pos]
    · norm_num [backtestConfig, abs_of_pos]
  refine ⟨hcrit, ?_⟩
  simp only [should_trade]
  rw [if_neg (by norm_num [backtestConfig])]
  rw [if_pos hcrit]

/-- np.std of an empty series is 0. -/
theorem npStd_nil : npStd [] = 0 := by
  unfold npStd popVar smean
  simp

/-- Fewer than two snapshots leave no daily returns. -/
theorem daily_returns_short (curve : List ℚ) (h : curve.length < 2) :
    daily_returns_of curve = [] := by
  cases curve with
  | nil => rfl
  | cons a t =>
    cases t with
    | nil => rfl
    | cons b u => simp only [List.length_cons] at h; omega

/-- C9: the reported Sharpe ratio is mean/std of the daily returns times
sqrt(252) when the standard deviation is positive, and exactly 0 when the
standard deviation is 0, in particular when fewer than two snapshots were
recorded. -/
theorem sharpe_thm (c0 : ℚ) (curve : List ℚ) (trades : List BTrade) :
    (0 < npStd (daily_returns_of curve) →
      (calc_results c0 curve trades).sharpe_val
        = ((smean (daily_returns_of curve) : ℚ) : ℝ)
            / npStd (daily_returns_of curve) * Real.sqrt 252)
    ∧ (npStd (daily_returns_of curve) = 0 →
      (calc_results c0 curve trades).sharpe_val = 0)
    ∧ (curve.length < 2 → (calc_results c0 curve trades).sharpe_val = 0) := by
  have hval : ∀ h : curve.isEmpty = false,
      (calc_results c0 curve trades).sharpe_val = sharpe_of (daily_returns_of curve) := by
    intro h
    unfold calc_results
    rw [if_neg (by simp [h])]
  by_cases hcur : curve.isEmpty
  · have hnil : curve = [] := by
      cases curve with
      | nil => rfl
      | cons a t => simp at hcur
    subst hnil
    have hzero : (calc_results c0 [] trades).sharpe_val = 0 := by
      unfold calc_results
      norm_num [empty_results]
    refine ⟨fun hpos => ?_, fun _ => hzero, fun _ => hzero⟩
    rw [show daily_returns_of [] = [] from rfl, npStd_nil] at hpos
    exact absurd hpos (lt_irrefl 0)
  · have hval2 := hval (by simpa using hcur)
    refine ⟨fun hpos => ?_, fun hzero => ?_, fun hshort => ?_⟩
    · rw [hval2]
      unfold sharpe_of
      have hne : (daily_returns_of curve).isEmpty = false := by
        cases hdr : daily_returns_of curve with
        | nil => rw [hdr, npStd_nil] at hpos; exact absurd hpos (lt_irrefl 0)
        | cons a t => rfl
      rw [if_neg (by simp [hne]), if_pos hpos]
    · rw [hval2]
      unfold sharpe_of
      by_cases hdr : (daily_returns_of curve).isEmpty
      · rw [if_pos hdr]
      · rw [if_neg hdr, if_neg (by rw [hzero]; exact lt_irrefl 0)]
    · rw [hval2, daily_returns_short curve hshort]
      simp [sharpe_of]

/-- Witness for C9 at a concrete curve with positive return stdev: the
curve 100, 110, 132 has daily returns 1/10 and 1/5, mean 3/20, population
std 1/20, so the reported Sharpe ratio is 3 sqrt(252). -/
theorem sharpe_witness :
    (calc_results 100 [100, 110, 132] []).sharpe_val = 3 * Real.sqrt 252 := by
  have hr : daily_returns_of [100, 110, 132] = [1/10, 1/5] := by
    norm_num [daily_returns_of]
  have hv : popVar [(1:ℚ)/10, 1/5] = 1/400 := by
    norm_num [popVar, smean]
  have hs : npStd (daily_returns_of [100, 110, 132]) = 1/20 := by
    rw [hr]
    unfold npStd
    rw [hv, show ((1/400 : ℚ) : ℝ) = (1/20 : ℝ)^2 by norm_num]
    exact Real.sqrt_sq (by norm_num)
  have h := (sharpe_thm 100 [100, 110, 132] []).1 (by rw [hs]; norm_num)
  rw [h, hs, hr, show smean [(1:ℚ)/10, 1/5] = 3/20 by norm_num [smean]]
  push_cast
  ring_nf

/-- C7: the ensemble signal is the majority vote over the five variants'
outputs: BUY when BUY votes outnumber SELL votes, SELL in the opposite
case, HOLD on a tie; in particular the votes BUY, BUY, BUY, SELL give
BUY. -/
theorem ensemble_vote_thm :
    (∀ data : Snapshot, ensemble_signal data = majority_vote (variant_signals data))
    ∧ (∀ votes : List String,
        ((votes.count "SELL" < votes.count "BUY") ↔ majority_vote votes = "BUY")
        ∧ ((votes.count "BUY" < votes.count "SELL") ↔ majority_vote votes = "SELL")
        ∧ ((votes.count "BUY" = votes.count "SELL") ↔ majority_vote votes = "HOLD"))
    ∧ majority_vote ["BUY", "BUY", "BUY", "SELL"] = "BUY" := by
  refine ⟨fun data => rfl, fun votes => ?_, by decide⟩
  simp only [majority_vote]
  split_ifs with h1 h2
  · exact ⟨iff_of_true h1 rfl, iff_of_false (by omega) (by decide),
      iff_of_false (by omega) (by decide)⟩
  · exact ⟨iff_of_false h1 (by decide), iff_of_true h2 rfl,
      iff_of_false (by omega) (by decide)⟩
  · exact ⟨iff_of_false h1 (by decide), iff_of_false h2 (by decide),
      iff_of_true (by omega) rfl⟩

/-- A caught computation only ever produces a produced ok-string or
HOLD. -/
theorem catchHold_mem (e : Except String String)
    (h : ∀ s, e = Except.ok s → s ∈ signalStrings) : catchHold e ∈ signalStrings := by
  cases e with
  | ok s => exact h s rfl
  | error _ => simp [catchHold, signalStrings]

/-- FundamentalTrader.generate_signal only produces the three signal
strings. -/
theorem fundamental_mem (a b c : ℚ) (data : Snapshot) :
    fundamental_signal a b c data ∈ signalStrings := by
  unfold fundamental_signal
  apply catchHold_mem
  intro s hs
  unfold fundamental_core at hs
  cases hOpt : data.financial_metrics with
  | none =>
    rw [hOpt] at hs
    simp [getKey, bind, Except.bind] at hs
  | some metrics =>
    rw [hOpt] at hs
    simp only [getKey, bind, Except.bind] at hs
    repeat' split at hs
    all_goals simp_all [pure, Except.pure, signalStrings]

/-- SentimentTrader.generate_signal only produces the three signal
strings. -/
theorem sentiment_mem (a : ℚ) (n : ℕ) (data : Snapshot) :
    sentiment_signal a n data ∈ signalStrings := by
  unfold sentiment_signal
  apply catchHold_mem
  intro s hs
  unfold sentiment_core at hs
  cases hOpt : data.news_sentiment with
  | none =>
    rw [hOpt] at hs
    simp [getKey, bind, Except.bind] at hs
  | some scores =>
    rw [hOpt] at hs
    simp only [getKey, bind, Except.bind] at hs
    repeat' split at hs
    all_goals simp_all [pure, Except.pure, signalStrings]

/-- MomentumTrader.generate_signal only produces the three signal
strings. -/
theorem momentum_mem (n : ℕ) (v : ℚ) (data : Snapshot) :
    momentum_signal n v data ∈ signalStrings := by
  unfold momentum_signal
  apply catchHold_mem
  intro s hs
  unfold momentum_core at hs
  cases hOpt : data.market_data with
  | none =>
    rw [hOpt] at hs
    simp [getKey, bind, Except.bind] at hs
  | some df =>
    rw [hOpt] at hs
    simp only [getKey, bind, Except.bind] at hs
    repeat' split at hs
    all_goals simp_all [pure, Except.pure, signalStrings]

/-- MeanReversionTrader.generate_signal only produces the three signal
strings. -/
theorem mean_reversion_mem (n : ℕ) (t : ℚ) (data : Snapshot) :
    mean_reversion_signal n t data ∈ signalStrings := by
  unfold mean_reversion_signal
  apply catchHold_mem
  intro s hs
  unfold mean_reversion_core at hs
  cases hOpt : data.market_data with
  | none =>
    rw [hOpt] at hs
    simp [getKey, bind, Except.bind] at hs
  | some df =>
    rw [hOpt] at hs
    simp only [getKey, bind, Except.bind] at hs
    repeat' split at hs
    all_goals simp_all [pure, Except.pure, signalStrings]

/-- MultiFactorTrader.generate_signal only produces the three signal
strings. -/
theorem multifactor_mem (tw fw sw : ℚ) (data : Snapshot) :
    multifactor_signal tw fw sw data ∈ signalStrings := by
  unfold multifactor_signal
  apply catchHold_mem
  intro s hs
  unfold multifactor_core at hs
  simp only [bind, Except.bind] at hs
  repeat' split at hs
  all_goals simp_all [pure, Except.pure, signalStrings]

/-- C8: every strategy variant's generate_signal is total: for every
snapshot, malformed ones included (a missing or mistyped dict key raises,
and the except handler degrades to HOLD), the output is one of BUY, SELL,
HOLD, for any configuration of the thresholds. -/
theorem variant_totality_thm (lookback : ℕ) (volume_threshold : ℚ)
    (ma_period : ℕ) (dev_threshold s_threshold : ℚ) (min_articles : ℕ)
    (pe_low pe_high growth tw fw sw : ℚ) (data : Snapshot) :
    momentum_signal lookback volume_threshold data ∈ signalStrings
    ∧ mean_reversion_signal ma_period dev_threshold data ∈ signalStrings
    ∧ sentiment_signal s_threshold min_articles data ∈ signalStrings
    ∧ fundamental_signal pe_low pe_high growth data ∈ signalStrings
    ∧ multifactor_signal tw fw sw data ∈ signalStrings :=
  ⟨momentum_mem _ _ _, mean_reversion_mem _ _ _, sentiment_mem _ _ _,
   fundamental_mem _ _ _ _, multifactor_mem _ _ _ _⟩

/-- C6: a buy whose notional plus commission exceeds the current cash is a
silent no-op (the whole state, hence also the position map and the trade
log, is unchanged), and a buy never drives a non-negative cash balance
negative. -/
theorem buy_overdraw_noop_thm (cfg : RMConfig) (s : EngineState)
    (symbol : String) (price volatility commission : ℚ) :
    (s.capital < buy_notional cfg s price volatility
        + buy_commission cfg s price volatility commission →
      execute_buy cfg s symbol price volatility commission = s)
    ∧ (0 ≤ s.capital →
      0 ≤ (execute_buy cfg s symbol price volatility commission).capital) := by
  constructor
  · intro hover
    simp only [execute_buy]
    split_ifs with h1 h2
    · rfl
    · rfl
    · exact absurd hover h2
  · intro hcap
    simp only [execute_buy]
    split_ifs with h1 h2
    · exact hcap
    · exact hcap
    · simp only [not_lt] at h2
      simpa using sub_nonneg.mpr h2

/-- Witness for C6 at a concrete overdraw: capital 1000, price 100, a 1000%
commission rate; the notional is 100, the commission 1000, and the buy
leaves the state untouched. -/
theorem buy_overdraw_noop_witness :
    execute_buy backtestConfig ⟨1000, [], []⟩ "A" 100 0 10 = ⟨1000, [], []⟩
    ∧ 0 ≤ (execute_buy backtestConfig ⟨1000, [], []⟩ "A" 100 0 10).capital :=
  ⟨(buy_overdraw_noop_thm backtestConfig ⟨1000, [], []⟩ "A" 100 0 10).1
      (by norm_num [buy_notional, buy_commission, buy_quantity, buy_size,
        calculate_position_size, backtestConfig, min_def]),
   (buy_overdraw_noop_thm backtestConfig ⟨1000, [], []⟩ "A" 100 0 10).2 (by norm_num)⟩

/-- C4 (amended): calculate_position_size returns
min(max_position_size x V x damp, f x V x damp, 0.1 x V) with
f = (0.55 Rwin - 0.45 Rloss)/Rwin and damp = 1/(1+10 sigma) — the first
cap term IS volatility-damped, unlike the spec's formula — and a
non-positive size makes the buy path a no-op. -/
theorem position_size_thm (cfg : RMConfig) (portfolio_value price volatility : ℚ)
    (s : EngineState) (symbol : String) (commission : ℚ) :
    calculate_position_size cfg portfolio_value price volatility =
      min (cfg.max_position_size * portfolio_value * (1 / (1 + 10 * volatility)))
        (min ((((11:ℚ)/20) * cfg.take_profit_pct - ((9:ℚ)/20) * cfg.stop_loss_pct)
            / cfg.take_profit_pct * portfolio_value * (1 / (1 + 10 * volatility)))
          (portfolio_value / 10))
    ∧ (calculate_position_size cfg s.capital price volatility ≤ 0 →
      execute_buy cfg s symbol price volatility commission = s) := by
  constructor
  · simp only [calculate_position_size]
    have e1 : portfolio_value * cfg.max_position_size * (1 / (1 + volatility * 10))
        = cfg.max_position_size * portfolio_value * (1 / (1 + 10 * volatility)) := by
      ring_nf
    have e2 : portfolio_value * ((11/20 * cfg.take_profit_pct
          - (1 - 11/20) * cfg.stop_loss_pct) / cfg.take_profit_pct)
          * (1 / (1 + volatility * 10))
        = (((11:ℚ)/20) * cfg.take_profit_pct - ((9:ℚ)/20) * cfg.stop_loss_pct)
          / cfg.take_profit_pct * portfolio_value * (1 / (1 + 10 * volatility)) := by
      ring_nf
    have e3 : portfolio_value * ((1:ℚ)/10) = portfolio_value / 10 := by ring
    rw [e1, e2, e3]
  · intro hle
    simp only [execute_buy, buy_size]
    rw [if_pos hle]

/-- Witness for C4's amended theorem: the sizing identity at portfolio
value 1000, volatility 1, and the no-op of the buy path at zero capital
(where the computed size is 0). -/
theorem position_size_witness :
    calculate_position_size backtestConfig 1000 100 1 =
      min (backtestConfig.max_position_size * 1000 * (1 / (1 + 10 * 1)))
        (min ((((11:ℚ)/20) * backtestConfig.take_profit_pct
            - ((9:ℚ)/20) * backtestConfig.stop_loss_pct)
            / backtestConfig.take_profit_pct * 1000 * (1 / (1 + 10 * 1)))
          (1000 / 10))
    ∧ execute_buy backtestConfig ⟨0, [], []⟩ "A" 100 1 0 = ⟨0, [], []⟩ :=
  ⟨(position_size_thm backtestConfig 1000 100 1 ⟨0, [], []⟩ "A" 0).1,
   (position_size_thm backtestConfig 0 100 1 ⟨0, [], []⟩ "A" 0).2
      (by norm_num [calculate_position_size, backtestConfig, min_def])⟩

/-- C4 (counterexample): with portfolio value 1000 > 0 and volatility 1 ≥ 0
the code returns 100/11 (the first cap damped to 100/11 wins), while the
claimed formula with an undamped first cap returns 400/11. -/
theorem position_size_counterexample :
    (0:ℚ) < 1000 ∧ (0:ℚ) ≤ 1
    ∧ calculate_position_size backtestConfig 1000 50 1 = 100/11
    ∧ spec_position_size backtestConfig 1000 1 = 400/11
    ∧ calculate_position_size backtestConfig 1000 50 1
        ≠ spec_position_size backtestConfig 1000 1 := by
  have h1 : calculate_position_size backtestConfig 1000 50 1 = 100/11 := by
    norm_num [calculate_position_size, backtestConfig, min_def]
  have h2 : spec_position_size backtestConfig 1000 1 = 400/11 := by
    norm_num [spec_position_size, backtestConfig, min_def]
  refine ⟨by norm_num, by norm_num, h1, h2, ?_⟩
  rw [h1, h2]
  norm_num

end AiTrading
